import Mathlib

/-!
Shallow embedding of the command execution and result-extraction engine of
the `ultralytics_mcp_server` repository (files `app/ultra.py` and
`app/main.py`), together with theorems settling the specification claims
about it.

Modelling conventions:
* Python dictionaries are association lists (`Dict`) with insertion-order
  semantics: assigning to an existing key replaces its value in place,
  assigning to a fresh key appends it at the end (`dinsert`).
* Python values that can appear in a request mapping or a metrics mapping
  are modelled by `PyVal`.  A non-bool, non-None value is emitted through
  its string representation `pyStr`; numeric metric values are carried as
  exact rationals (the claims at issue never depend on binary floating
  point rounding, only on which occurrence of a token is parsed).
* The subprocess boundary is modelled by `ProcOutcome`: the four ways the
  `subprocess.run` call inside `run_ultralytics` can resolve, matching the
  four control paths of the source (`try` body and the three handlers).
* The filesystem state scanned after the run is modelled by `FS`: the list
  of files the `os.walk` over the six result roots yields (each with the
  outcome of opening/decoding it, the `json`/`yaml` libraries being
  external to this repository) and the list of files the walk over the
  four artifact roots yields.
-/

namespace Ultra

/-- Python values as they occur in request mappings and metric mappings of
`app/ultra.py` / `app/main.py`.  `vFloat` carries the exact decimal value
of a parsed numeric literal as a rational; `vDict` models a nested dict
(used for `extra_args`, and for parsed result-file contents). -/
inductive PyVal where
  | vNone
  | vBool (b : Bool)
  | vInt (n : Int)
  | vFloat (q : Rat)
  | vStr (s : String)
  | vDict (l : List (String × PyVal))

/-- A Python dict, in insertion order. -/
abbrev Dict := List (String × PyVal)

/-- Python `str(value)` for the values we model.  `vStr` is returned
verbatim, integers and booleans print as in Python; the rendering of
`vFloat`/`vDict` is a stand-in (no claim depends on their exact text). -/
def pyStr : PyVal → String
  | .vNone => "None"
  | .vBool true => "True"
  | .vBool false => "False"
  | .vInt n => toString n
  | .vFloat q => toString q
  | .vStr s => s
  | .vDict _ => "<dict>"

/-- Python dict assignment `d[k] = v`: replace the first (and in a real
dict, only) binding of `k` in place, or append a fresh binding. -/
def dinsert : Dict → String → PyVal → Dict
  | [], k, v => [(k, v)]
  | (k1, v1) :: rest, k, v =>
      if k1 = k then (k, v) :: rest else (k1, v1) :: dinsert rest k v

/-- Python `d.update(n)`: assign every binding of `n` into `d`, in order. -/
def dupdate (d : Dict) (n : Dict) : Dict :=
  n.foldl (fun m kv => dinsert m kv.1 kv.2) d

/-! ## ArgumentTranslator: `parse_yolo_args` (app/ultra.py, lines 272-291) -/

/-- Device defaulting step of `parse_yolo_args`: when `device` is absent or
`None`, write `cuda`/`cpu` into the dict (the source consults
`TORCH_AVAILABLE and torch.cuda.is_available()`, modelled by the `cuda`
flag).  This mutates the caller's dict in the source; here it returns the
updated dict. -/
def resolve_device (cuda : Bool) (d : Dict) : Dict :=
  match List.lookup "device" d with
  | none => dinsert d "device" (.vStr (if cuda then "cuda" else "cpu"))
  | some .vNone => dinsert d "device" (.vStr (if cuda then "cuda" else "cpu"))
  | some _ => d

/-- Body of the emission loop of `parse_yolo_args`: skip `None`, append a
bare `--key` flag for `True`, nothing for `False`, otherwise append
`--key` followed by `str(value)`. -/
def emit_step (args : List String) : String × PyVal → List String
  | (_, .vNone) => args
  | (k, .vBool b) => if b then args ++ ["--" ++ k] else args
  | (k, v) => args ++ ["--" ++ k, pyStr v]

/-- The emission loop of `parse_yolo_args`, in iteration order. -/
def emit_loop (d : Dict) : List String :=
  d.foldl emit_step []

/-- Embedding of `parse_yolo_args(args_dict)`.  The source returns the
token list and mutates `args_dict` in place (device defaulting); the
embedding returns the pair (tokens, post-call dict). -/
def parse_yolo_args (cuda : Bool) (d : Dict) : List String × Dict :=
  let d1 := resolve_device cuda d
  (emit_loop d1, d1)

/-- Per-entry contribution of the emission loop, used to state what each
key contributes to the token stream. -/
def emitEntry : String × PyVal → List String
  | (_, .vNone) => []
  | (k, .vBool b) => if b then ["--" ++ k] else []
  | (k, v) => ["--" ++ k, pyStr v]

/-! ## Request processing: `process_request_args` (app/main.py, lines 38-59) -/

/-- Per-entry contribution of the `extra_args` loop of
`process_request_args`: skip `None`, bare `key` for `True`, nothing for
`False`, otherwise the single token `key=str(value)`. -/
def extraEntry : String × PyVal → List String
  | (_, .vNone) => []
  | (k, .vBool b) => if b then [k] else []
  | (k, v) => [k ++ "=" ++ pyStr v]

/-- Body of the `extra_args` loop of `process_request_args`. -/
def extra_step (args : List String) : String × PyVal → List String
  | (_, .vNone) => args
  | (k, .vBool b) => if b then args ++ [k] else args
  | (k, v) => args ++ [k ++ "=" ++ pyStr v]

/-- The `extra_args` loop of `process_request_args`, accumulator style as
in the source. -/
def extra_loop (extras : List (String × PyVal)) (args : List String) : List String :=
  extras.foldl extra_step args

/-- The value popped for `extra_args`: its bindings when it is a dict,
nothing otherwise (the schema layer supplies a dict or the default). -/
def extras_of (request : Dict) : List (String × PyVal) :=
  match List.lookup "extra_args" request with
  | some (.vDict l) => l
  | _ => []

/-- Embedding of `process_request_args(request_data)`: pop `extra_args`
and `task`, translate the rest through `parse_yolo_args`, then append the
extra tokens in `key=value` / bare-key form. -/
def process_request_args (cuda : Bool) (request : Dict) : List String :=
  let extras := extras_of request
  let rd := request.filter (fun kv => kv.1 ≠ "extra_args" && kv.1 ≠ "task")
  let args := (parse_yolo_args cuda rd).1
  extra_loop extras args

/-! ## OutputMetricsExtractor: textual pattern scans (app/ultra.py, lines 81-202).

Python regexes are embedded as explicit matchers over `List Char`.  The
classes `\d` and `\s` are modelled by their ASCII fragments (Python's
`re` also accepts other Unicode digits/spaces; none of the claims depends
on the distinction).  Each pattern of the source starts with a literal or
a character class and always consumes at least one character, and none of
them needs backtracking: every greedy piece is followed by a character
outside its class, so maximal-munch matching coincides with Python's. -/

/-- ASCII fragment of Python regex `\s` and of `str.strip` whitespace. -/
def isPySpace (c : Char) : Bool :=
  c = ' ' || c = '\t' || c = '\n' || c = '\r' || c = '\x0b' || c = '\x0c'

/-- Character class `[\d.]` of the numeric-token patterns. -/
def isNumDot (c : Char) : Bool := c.isDigit || c = '.'

/-- Python `int()` on a digit string. -/
def digitsToNat (ds : List Char) : Nat :=
  ds.foldl (fun n c => 10 * n + (c.toNat - 48)) 0

/-- Consume an exact literal prefix, returning the remainder. -/
def dropLit : List Char → List Char → Option (List Char)
  | [], l => some l
  | _ :: _, [] => none
  | c :: cs, x :: xs => if c = x then dropLit cs xs else none

/-- Driver of `re.findall`: at each position try the pattern; on a match
record the captures and resume after the matched text, otherwise advance
one character.  Every pattern used in the source consumes at least one
character on success, so fuel `length + 1` is never exhausted. -/
def scanAll {α : Type} (tryAt : List Char → Option (α × List Char)) :
    Nat → List Char → List α
  | 0, _ => []
  | _, [] => []
  | fuel + 1, c :: cs =>
      match tryAt (c :: cs) with
      | some (a, rest) => a :: scanAll tryAt fuel rest
      | none => scanAll tryAt fuel cs

/-- `re.findall(pattern, text)` for one of the embedded patterns. -/
def findall {α : Type} (tryAt : List Char → Option (α × List Char))
    (l : List Char) : List α :=
  scanAll tryAt (l.length + 1) l

/-- Match attempt for `Epoch\s+(\d+)/(\d+)` at the current position. -/
def epochTryAt (l : List Char) : Option ((Nat × Nat) × List Char) :=
  match dropLit "Epoch".data l with
  | none => none
  | some l1 =>
      let (sp, l2) := l1.span isPySpace
      if sp.isEmpty then none
      else
        let (d1, l3) := l2.span Char.isDigit
        if d1.isEmpty then none
        else
          match l3 with
          | '/' :: l4 =>
              let (d2, l5) := l4.span Char.isDigit
              if d2.isEmpty then none
              else some ((digitsToNat d1, digitsToNat d2), l5)
          | _ => none

/-- Match attempt for `LABEL\s*([\d.]+)` at the current position; used for
the loss, mAP, precision and recall patterns, whose labels include the
trailing colon. -/
def labelNumTryAt (label : List Char) (l : List Char) :
    Option (List Char × List Char) :=
  match dropLit label l with
  | none => none
  | some l1 =>
      let (_, l2) := l1.span isPySpace
      let (num, l3) := l2.span isNumDot
      if num.isEmpty then none else some (num, l3)

/-- Match attempt for `inference:\s*([\d.]+)ms`. -/
def inferenceTryAt (l : List Char) : Option (List Char × List Char) :=
  match dropLit "inference:".data l with
  | none => none
  | some l1 =>
      let (_, l2) := l1.span isPySpace
      let (num, l3) := l2.span isNumDot
      if num.isEmpty then none
      else
        match dropLit "ms".data l3 with
        | none => none
        | some l4 => some (num, l4)

/-- Match attempt for `(\d+)\s+detections`. -/
def detectionsTryAt (l : List Char) : Option (Nat × List Char) :=
  let (ds, l1) := l.span Char.isDigit
  if ds.isEmpty then none
  else
    let (sp, l2) := l1.span isPySpace
    if sp.isEmpty then none
    else
      match dropLit "detections".data l2 with
      | none => none
      | some l3 => some (digitsToNat ds, l3)

/-- Match attempt for `Export complete \(([\d.]+)s\)`. -/
def exportTryAt (l : List Char) : Option (List Char × List Char) :=
  match dropLit "Export complete (".data l with
  | none => none
  | some l1 =>
      let (num, l2) := l1.span isNumDot
      if num.isEmpty then none
      else
        match dropLit "s)".data l2 with
        | none => none
        | some l3 => some (num, l3)

/-- Match attempt for `Results saved to (.+)`; `.` is any character except
newline, greedy to the end of the line. -/
def savedTryAt (l : List Char) : Option (List Char × List Char) :=
  match dropLit "Results saved to ".data l with
  | none => none
  | some l1 =>
      let (cap, l2) := l1.span (fun c => c ≠ '\n')
      if cap.isEmpty then none else some (cap, l2)

/-- Python `str.strip()` (ASCII whitespace fragment). -/
def pyStrip (s : List Char) : List Char :=
  ((s.dropWhile isPySpace).reverse.dropWhile isPySpace).reverse

/-- Python `float()` on a token drawn from the class `[\d.]`: defined when
the token has at least one digit and at most one dot; on a token such as
`1.2.3` or `.` Python raises `ValueError` (`none` here). -/
def pyFloat (s : List Char) : Option Rat :=
  if s.isEmpty then none
  else if s.count '.' = 0 then some ((digitsToNat s : Nat) : Rat)
  else if s.count '.' = 1 then
    let ip := s.takeWhile (fun c => c ≠ '.')
    let fp := (s.dropWhile (fun c => c ≠ '.')).drop 1
    if ip.isEmpty && fp.isEmpty then none
    else some ((digitsToNat ip : Rat) + (digitsToNat fp : Rat) / ((10 : Rat) ^ fp.length))
  else none

/-- The Python `ValueError` message raised by `float()` on a bad token. -/
def floatErr (num : List Char) : String :=
  "could not convert string to float: \x27" ++ String.mk num ++ "\x27"

/-- One float-valued scan of the source: run the findall, and if there is
a match convert the last one with `float()`, which raises (`Except.error`)
on a malformed token; on success store the value under `key`. -/
def floatScanWith (tryAt : List Char → Option (List Char × List Char))
    (output : List Char) (key : String) (m : Dict) : Except String Dict :=
  match (findall tryAt output).getLast? with
  | none => .ok m
  | some num =>
      match pyFloat num with
      | some q => .ok (dinsert m key (.vFloat q))
      | none => .error (floatErr num)

/-- A `LABEL\s*([\d.]+)` float scan keyed by `key`. -/
def floatScan (output : List Char) (key label : String) (m : Dict) :
    Except String Dict :=
  floatScanWith (labelNumTryAt label.data) output key m

/-- A batch of float scans, applied in order (as the source's `for` loops
over its pattern tables). -/
def floatScans (output : List Char) (keys : List (String × String)) (m : Dict) :
    Except String Dict :=
  keys.foldlM (fun m kv => floatScan output kv.1 kv.2 m) m

/-- The `loss_patterns` table of `_parse_training_metrics`. -/
def lossPatternKeys : List (String × String) :=
  [("box_loss", "box_loss:"), ("obj_loss", "obj_loss:"),
   ("cls_loss", "cls_loss:"), ("total_loss", "total_loss:")]

/-- The `map_patterns` table of `_parse_training_metrics`. -/
def mapPatternKeys : List (String × String) :=
  [("mAP50", "mAP50:"), ("mAP50-95", "mAP50-95:")]

/-- The epoch block of `_parse_training_metrics`: store the last
`Epoch N/M` occurrence as integers. -/
def epochDict (output : List Char) : Dict :=
  match (findall epochTryAt output).getLast? with
  | none => []
  | some (cur, tot) =>
      dinsert (dinsert [] "current_epoch" (.vInt (cur : Int))) "total_epochs" (.vInt (tot : Int))

/-- Embedding of `_parse_training_metrics` (the leading underscore of the
source name is dropped).  Stores the last `Epoch N/M` occurrence as
integers, then the loss and mAP values as floats, last match wins. -/
def parse_training_metrics (output : List Char) : Except String Dict := do
  let m ← floatScans output lossPatternKeys (epochDict output)
  floatScans output mapPatternKeys m

/-- The precision/recall patterns of `_parse_validation_metrics`. -/
def valPatternKeys : List (String × String) :=
  [("precision", "Precision:"), ("recall", "Recall:")]

/-- Embedding of `_parse_validation_metrics`. -/
def parse_validation_metrics (output : List Char) : Except String Dict :=
  floatScans output valPatternKeys []

/-- Embedding of `_parse_prediction_metrics`: last inference time as a
float, then last detection count as an integer. -/
def parse_prediction_metrics (output : List Char) : Except String Dict := do
  let m ← floatScanWith inferenceTryAt output "inference_time_ms" []
  match (findall detectionsTryAt output).getLast? with
  | none => pure m
  | some n => pure (dinsert m "total_detections" (.vInt (n : Int)))

/-- Embedding of `_parse_export_metrics`: last export duration as a float,
then the last `Results saved to` path, stripped. -/
def parse_export_metrics (output : List Char) : Except String Dict := do
  let m ← floatScanWith exportTryAt output "export_time_s" []
  match (findall savedTryAt output).getLast? with
  | none => pure m
  | some cap => pure (dinsert m "exported_file" (.vStr (String.mk (pyStrip cap))))

/-! ## ResultFileCollector and ArtifactScanner (app/ultra.py, lines 205-269) -/

/-- A file seen by the walk over the six result roots: its path and the
outcome of opening and decoding it (the `json` / `yaml` decoders are
libraries external to this repository; a failure carries `str(e)`). -/
structure RFile where
  path : String
  parsed : Except String PyVal

/-- Python `s.endswith(suffix)` (computable suffix test on the character
lists). -/
def strEndsWith (s suffix : String) : Bool :=
  suffix.data.isSuffixOf s.data

/-- Python `Path(p).stem`: the final path component without its suffix; a
suffix exists only when the last dot is neither the first nor the last
character of the component. -/
def stemOf (path : String) : String :=
  let name := (path.data.reverse.takeWhile (fun c => c ≠ '/')).reverse
  match name.reverse.findIdx? (fun c => c = '.') with
  | none => String.mk name
  | some j =>
      let i := name.length - 1 - j
      if 0 < i ∧ i < name.length - 1 then String.mk (name.take i) else String.mk name

/-- Embedding of `_parse_results_file`: on an open or decode failure store
`str(e)` under `file_<stem>_error`; on success store the decoded content
under `file_<stem>` when the extension is structured (only such files are
passed in by the caller).  The function never fails. -/
def parse_results_file (f : RFile) : Dict :=
  match f.parsed with
  | .error e => [("file_" ++ stemOf f.path ++ "_error", .vStr e)]
  | .ok v =>
      if strEndsWith f.path ".json" then [("file_" ++ stemOf f.path, v)]
      else if strEndsWith f.path ".yaml" || strEndsWith f.path ".yml" then
        [("file_" ++ stemOf f.path, v)]
      else []

/-- Filesystem state read after the run: the files yielded by the
`os.walk` over the six result roots and over the four artifact roots (in
walk order, paths as the source builds them). -/
structure FS where
  resultWalk : List RFile
  artifactWalk : List String

/-- Embedding of `_find_results_files`: keep the walked files whose name
has a structured-data extension. -/
def find_results_files (fs : FS) : List RFile :=
  fs.resultWalk.filter
    (fun f =>
      strEndsWith f.path ".yaml" || strEndsWith f.path ".yml" || strEndsWith f.path ".json")

/-- Lexicographic code-point order on character lists, as Python compares
strings. -/
def charListLe : List Char → List Char → Bool
  | [], _ => true
  | _ :: _, [] => false
  | c :: cs, d :: ds =>
      if c.toNat < d.toNat then true
      else if d.toNat < c.toNat then false
      else charListLe cs ds

/-- Python string comparison `a <= b` (code-point lexicographic). -/
def strLe (a b : String) : Bool := charListLe a.data b.data

/-- Insertion step of a stable insertion sort on strings. -/
def insertLe (x : String) : List String → List String
  | [] => [x]
  | y :: ys => if strLe x y then x :: y :: ys else y :: insertLe x ys

/-- Python `sorted` on strings (lexicographic). -/
def sortStrings (l : List String) : List String := l.foldr insertLe []

/-- Embedding of `_find_artifacts`: every file under the four artifact
roots, relative path, sorted. -/
def find_artifacts (fs : FS) : List String := sortStrings fs.artifactWalk

/-- The result-file loop of `_parse_metrics_from_output`:
`metrics.update(_parse_results_file(f))` for each discovered file. -/
def collect_result_files (files : List RFile) (m : Dict) : Dict :=
  files.foldl (fun m f => dupdate m (parse_results_file f)) m

/-- The purely textual part of `_parse_metrics_from_output`: the four
scan families applied to the combined buffer, merged in order.  Depends
only on the text. -/
def text_metrics (full : List Char) : Except String Dict := do
  let t ← parse_training_metrics full
  let v ← parse_validation_metrics full
  let p ← parse_prediction_metrics full
  let e ← parse_export_metrics full
  pure (dupdate (dupdate (dupdate (dupdate [] t) v) p) e)

/-- Embedding of `_parse_metrics_from_output(stdout, stderr)`: concatenate
the streams with a newline, apply the four scan families in order, then
fold in the discovered result files.  The filesystem the source reads
through `_find_results_files` is the explicit `fs` argument. -/
def parse_metrics_from_output (stdout stderr : String) (fs : FS) : Except String Dict := do
  let full := stdout.data ++ '\n' :: stderr.data
  let m : Dict := []
  let t ← parse_training_metrics full
  let m := dupdate m t
  let v ← parse_validation_metrics full
  let m := dupdate m v
  let p ← parse_prediction_metrics full
  let m := dupdate m p
  let e ← parse_export_metrics full
  let m := dupdate m e
  pure (collect_result_files (find_results_files fs) m)

/-! ## ProcessRunner / ExecutionOrchestrator: `run_ultralytics`
(app/ultra.py, lines 16-78) -/

/-- The four ways the `subprocess.run` call inside `run_ultralytics` can
resolve, one per control path of the source: normal completion (this
includes a child terminated by a signal, which `subprocess.run` reports as
a negative return code, not an exception), `TimeoutExpired`,
`CalledProcessError` (its handler exists in the source although
`subprocess.run` is invoked without `check=True`), and any other
exception — executable missing, unrunnable — carrying `str(e)`. -/
inductive ProcOutcome where
  | completed (rc : Int) (out err : String)
  | timedOut
  | calledError (rc : Int) (out err : String)
  | otherError (msg : String)

/-- The `result_dict` built by `run_ultralytics`. -/
structure ResultRec where
  command : String
  return_code : Option Int
  stdout : String
  stderr : String
  metrics : Dict
  artifacts : List String
  success : Bool

/-- Embedding of `run_ultralytics(args)`.  The initial record is built,
then filled along the control path selected by the process outcome.  A
metrics-extraction exception inside the `try` block (a `ValueError` from
`float()`) falls into the generic handler, which overwrites `return_code`
and `stderr` while the already-assigned `stdout` keeps the captured text
and `metrics`/`artifacts` keep their initial empty values.  The function
is total: no failure mode escapes the component boundary. -/
def run_ultralytics (args : List String) (o : ProcOutcome) (fs : FS) : ResultRec :=
  let base : ResultRec :=
    { command := String.intercalate " " ("yolo" :: args)
      return_code := none
      stdout := ""
      stderr := ""
      metrics := []
      artifacts := []
      success := false }
  match o with
  | .completed rc out err =>
      let r1 : ResultRec :=
        { base with
          return_code := some rc
          stdout := out
          stderr := err
          success := rc == 0 }
      match parse_metrics_from_output out err fs with
      | .ok m => { r1 with metrics := m, artifacts := find_artifacts fs }
      | .error msg =>
          { r1 with
            return_code := some (-1)
            stderr := "Unexpected error: " ++ msg
            success := false }
  | .timedOut =>
      { base with
        return_code := some (-1)
        stderr := "Command timed out after 1 hour"
        success := false }
  | .calledError rc out err =>
      { base with
        return_code := some rc
        stdout := out
        stderr := err
        success := false }
  | .otherError msg =>
      { base with
        return_code := some (-1)
        stderr := "Unexpected error: " ++ msg
        success := false }

/-- Outcomes the `subprocess.run` call can actually produce:
`CalledProcessError` is only raised under `check=True`, which the source
does not pass, so that handler is dead code. -/
def SubprocessReachable : ProcOutcome → Prop
  | .calledError _ _ _ => False
  | _ => True

/-! ## Helper lemmas shared by the claim theorems -/

theorem lookup_dinsert_self (d : Dict) (k : String) (v : PyVal) :
    List.lookup k (dinsert d k v) = some v := by
  induction d with
  | nil => simp [dinsert, List.lookup]
  | cons kv rest ih =>
      obtain ⟨k1, v1⟩ := kv
      by_cases h : k1 = k
      · subst h; simp [dinsert, List.lookup]
      · have hb : (k == k1) = false := beq_false_of_ne (Ne.symm h)
        simp [dinsert, h, List.lookup, hb, ih]

theorem lookup_dinsert_ne (d : Dict) (k k1 : String) (v : PyVal) (h : k1 ≠ k) :
    List.lookup k1 (dinsert d k v) = List.lookup k1 d := by
  induction d with
  | nil => simp [dinsert, List.lookup, beq_false_of_ne h]
  | cons kv rest ih =>
      obtain ⟨k2, v2⟩ := kv
      by_cases h2 : k2 = k
      · subst h2
        simp [dinsert, List.lookup, beq_false_of_ne h]
      · simp only [dinsert, if_neg h2]
        cases hx : (k1 == k2) <;> simp [List.lookup, hx, ih]

theorem emit_step_eq (args : List String) (kv : String × PyVal) :
    emit_step args kv = args ++ emitEntry kv := by
  obtain ⟨k, v⟩ := kv
  cases v with
  | vNone => simp [emit_step, emitEntry]
  | vBool b => cases b <;> simp [emit_step, emitEntry]
  | vInt n => rfl
  | vFloat q => rfl
  | vStr s => rfl
  | vDict l => rfl

theorem foldl_emit_step (d : Dict) : ∀ args : List String,
    d.foldl emit_step args = args ++ d.flatMap emitEntry := by
  induction d with
  | nil => intro args; simp
  | cons kv rest ih =>
      intro args
      simp [List.foldl_cons, emit_step_eq, ih, List.flatMap_cons]

theorem emit_loop_eq (d : Dict) : emit_loop d = d.flatMap emitEntry := by
  simpa using foldl_emit_step d []

theorem extra_step_eq (args : List String) (kv : String × PyVal) :
    extra_step args kv = args ++ extraEntry kv := by
  obtain ⟨k, v⟩ := kv
  cases v with
  | vNone => simp [extra_step, extraEntry]
  | vBool b => cases b <;> simp [extra_step, extraEntry]
  | vInt n => rfl
  | vFloat q => rfl
  | vStr s => rfl
  | vDict l => rfl

theorem extra_loop_eq (extras : List (String × PyVal)) : ∀ args : List String,
    extra_loop extras args = args ++ extras.flatMap extraEntry := by
  induction extras with
  | nil => intro args; simp [extra_loop]
  | cons kv rest ih =>
      intro args
      simp only [extra_loop, List.foldl_cons] at ih ⊢
      simp [extra_step_eq, ih, List.flatMap_cons]

theorem except_bind_ok {α β : Type} {x : Except String α} {f : α → Except String β} {b : β}
    (h : x >>= f = .ok b) : ∃ a, x = .ok a ∧ f a = .ok b := by
  cases x with
  | error e => simp [Bind.bind, Except.bind] at h
  | ok a => exact ⟨a, rfl, by simpa [Bind.bind, Except.bind] using h⟩

theorem lookup_split {l : Dict} {k : String} {v : PyVal}
    (h : List.lookup k l = some v) : ∃ l1 l2, l = l1 ++ (k, v) :: l2 := by
  induction l with
  | nil => simp [List.lookup] at h
  | cons kv rest ih =>
      obtain ⟨k1, v1⟩ := kv
      cases hx : (k == k1) with
      | true =>
          have hk : k = k1 := by simpa using hx
          subst hk
          simp [List.lookup, hx] at h
          subst h
          exact ⟨[], rest, rfl⟩
      | false =>
          simp [List.lookup, hx] at h
          obtain ⟨l1, l2, hsplit⟩ := ih h
          exact ⟨(k1, v1) :: l1, l2, by simp [hsplit]⟩

theorem floatScanWith_ok_last {tryAt : List Char → Option (List Char × List Char)}
    {out : List Char} {key : String} {m m1 : Dict} {s : List Char}
    (h : floatScanWith tryAt out key m = .ok m1)
    (hl : (findall tryAt out).getLast? = some s) :
    ∃ q, pyFloat s = some q ∧ List.lookup key m1 = some (.vFloat q) := by
  unfold floatScanWith at h
  split at h
  next heq => rw [hl] at heq; cases heq
  next num heq =>
      rw [hl] at heq
      injection heq with hnum
      subst hnum
      split at h
      next q hq =>
          injection h with h2
          subst h2
          exact ⟨q, hq, lookup_dinsert_self _ _ _⟩
      next hq => cases h

theorem floatScanWith_ok_ne {tryAt : List Char → Option (List Char × List Char)}
    {out : List Char} {key : String} {m m1 : Dict} {k : String}
    (h : floatScanWith tryAt out key m = .ok m1) (hk : k ≠ key) :
    List.lookup k m1 = List.lookup k m := by
  unfold floatScanWith at h
  split at h
  next heq =>
      injection h with h2
      subst h2
      rfl
  next num heq =>
      split at h
      next q hq =>
          injection h with h2
          subst h2
          exact lookup_dinsert_ne _ _ _ _ hk
      next hq => cases h

theorem floatScans_nil (out : List Char) (m : Dict) : floatScans out [] m = .ok m := rfl

theorem floatScans_cons (out : List Char) (kv : String × String)
    (rest : List (String × String)) (m : Dict) :
    floatScans out (kv :: rest) m =
      floatScan out kv.1 kv.2 m >>= fun m2 => floatScans out rest m2 := rfl

theorem floatScans_ok_ne {out : List Char} {keys : List (String × String)}
    {m m1 : Dict} {k : String}
    (hk : ∀ kv ∈ keys, k ≠ kv.1) (h : floatScans out keys m = .ok m1) :
    List.lookup k m1 = List.lookup k m := by
  induction keys generalizing m with
  | nil =>
      rw [floatScans_nil] at h
      injection h with h2
      subst h2
      rfl
  | cons kv rest ih =>
      rw [floatScans_cons] at h
      obtain ⟨m2, h1, h2⟩ := except_bind_ok h
      unfold floatScan at h1
      have e1 := floatScanWith_ok_ne h1 (hk kv (by simp))
      have e2 := ih (fun kv2 hkv2 => hk kv2 (by simp [hkv2])) h2
      rw [e2, e1]

theorem floatScans_ok_mem {out : List Char} {keys : List (String × String)}
    {m m1 : Dict} {key label : String} {s : List Char}
    (hmem : (key, label) ∈ keys) (hnd : (keys.map Prod.fst).Nodup)
    (h : floatScans out keys m = .ok m1)
    (hl : (findall (labelNumTryAt label.data) out).getLast? = some s) :
    ∃ q, pyFloat s = some q ∧ List.lookup key m1 = some (.vFloat q) := by
  induction keys generalizing m with
  | nil => cases hmem
  | cons kv rest ih =>
      rw [floatScans_cons] at h
      obtain ⟨m2, h1, h2⟩ := except_bind_ok h
      rcases List.mem_cons.mp hmem with heq | hmem2
      · subst heq
        unfold floatScan at h1
        obtain ⟨q, hq, hlook⟩ := floatScanWith_ok_last h1 hl
        have hkey : key ∉ rest.map Prod.fst := by
          rw [List.map_cons] at hnd
          exact (List.nodup_cons.mp hnd).1
        have hpres : List.lookup key m1 = List.lookup key m2 := by
          refine floatScans_ok_ne ?_ h2
          intro kv2 hkv2
          intro hcontra
          exact hkey (hcontra ▸ List.mem_map_of_mem Prod.fst hkv2)
        rw [hpres]
        exact ⟨q, hq, hlook⟩
      · have hnd2 : (rest.map Prod.fst).Nodup := by
          rw [List.map_cons] at hnd
          exact (List.nodup_cons.mp hnd).2
        exact ih hmem2 hnd2 h2

theorem epochDict_lookup {out : List Char} {a b : Nat}
    (hl : (findall epochTryAt out).getLast? = some (a, b)) :
    List.lookup "current_epoch" (epochDict out) = some (.vInt (a : Int)) ∧
    List.lookup "total_epochs" (epochDict out) = some (.vInt (b : Int)) := by
  unfold epochDict
  rw [hl]
  constructor
  · rw [lookup_dinsert_ne _ _ _ _ (by decide)]
    exact lookup_dinsert_self _ _ _
  · exact lookup_dinsert_self _ _ _

/-! ## Claim theorems -/

/-- C1 (counterexample): the claim says that after a timeout the
orchestrator still runs metrics extraction, file collection and the
artifact scan.  It does not: with a result file and an artifact present on
disk, the record returned for a timed-out run keeps `metrics = []` and
`artifacts = []`, although the skipped stages would have produced the
non-empty data shown in the last two conjuncts. -/
theorem C1_counterexample :
    (run_ultralytics ["train"] .timedOut
        ⟨[⟨"runs/train/results.json", .ok (.vInt 1)⟩], ["runs/train/weights/best.pt"]⟩).metrics
      = [] ∧
    (run_ultralytics ["train"] .timedOut
        ⟨[⟨"runs/train/results.json", .ok (.vInt 1)⟩], ["runs/train/weights/best.pt"]⟩).artifacts
      = [] ∧
    find_artifacts ⟨[⟨"runs/train/results.json", .ok (.vInt 1)⟩], ["runs/train/weights/best.pt"]⟩
      = ["runs/train/weights/best.pt"] ∧
    parse_metrics_from_output "" ""
        ⟨[⟨"runs/train/results.json", .ok (.vInt 1)⟩], ["runs/train/weights/best.pt"]⟩
      = .ok [("file_results", .vInt 1)] :=
  ⟨rfl, rfl, rfl, rfl⟩

/-- C1 (amended): when the process times out or fails to launch, the
`except` handlers of `run_ultralytics` return immediately after setting
the sentinel fields, skipping the remaining pipeline stages, so the
record's `metrics` and `artifacts` keep their initial empty values. -/
theorem C1_amended (args : List String) (msg : String) (fs : FS) :
    (run_ultralytics args .timedOut fs).metrics = [] ∧
    (run_ultralytics args .timedOut fs).artifacts = [] ∧
    (run_ultralytics args (.otherError msg) fs).metrics = [] ∧
    (run_ultralytics args (.otherError msg) fs).artifacts = [] :=
  ⟨rfl, rfl, rfl, rfl⟩

/-- C2: for every outcome `subprocess.run` can actually produce (normal
completion with any exit code, timeout, launch failure, or an unexpected
error inside the `try` block), the returned record satisfies
`success = (return_code == 0)`; the two fields never disagree. -/
theorem C2_success_iff_return_code_zero (args : List String) (o : ProcOutcome) (fs : FS)
    (h : SubprocessReachable o) :
    ((run_ultralytics args o fs).success = true ↔
      (run_ultralytics args o fs).return_code = some 0) := by
  cases o with
  | completed rc out err =>
      cases hp : parse_metrics_from_output out err fs with
      | ok m => simp [run_ultralytics, hp]
      | error e => simp [run_ultralytics, hp]
  | timedOut => simp [run_ultralytics]
  | calledError rc out err => exact False.elim h
  | otherError msg => simp [run_ultralytics]

/-- C2 witness: a concrete successful completion, where both fields agree. -/
theorem C2_success_iff_return_code_zero_witness :
    ((run_ultralytics ["val"] (.completed 0 "" "") ⟨[], []⟩).success = true ↔
      (run_ultralytics ["val"] (.completed 0 "" "") ⟨[], []⟩).return_code = some 0) :=
  C2_success_iff_return_code_zero ["val"] (.completed 0 "" "") ⟨[], []⟩ True.intro

/-- C3 (counterexample): the claim says a child "terminated abnormally"
yields the sentinel `-1`.  A child killed by a signal is reported by
`subprocess.run` as a normal completion with a negative return code (no
exception), so `run_ultralytics` records the code verbatim: for a
SIGKILLed child the record carries `-9`, not the sentinel `-1`. -/
theorem C3_counterexample :
    (run_ultralytics ["train"] (.completed (-9) "" "") ⟨[], []⟩).return_code = some (-9) ∧
    (run_ultralytics ["train"] (.completed (-9) "" "") ⟨[], []⟩).return_code ≠ some (-1) ∧
    (run_ultralytics ["train"] (.completed (-9) "" "") ⟨[], []⟩).success = false := by
  refine ⟨rfl, ?_, rfl⟩
  intro h
  rw [show (run_ultralytics ["train"] (.completed (-9) "" "") ⟨[], []⟩).return_code
      = some (-9) from rfl] at h
  injection h with h2
  exact absurd h2 (by decide)

/-- C3 (amended): `run_ultralytics` never raises (it is a total function
of the outcome): on timeout it returns the sentinel `-1`, the fixed
diagnostic string and `success = false`; on any exception raised by the
invocation (executable missing or unrunnable) it returns the sentinel
`-1`, the error text prefixed by `Unexpected error: `, and
`success = false`.  A child terminated by a signal is instead reported
through the normal-completion path with its negative code verbatim. -/
theorem C3_amended (args : List String) (fs : FS) (msg : String) :
    ((run_ultralytics args .timedOut fs).return_code = some (-1) ∧
     (run_ultralytics args .timedOut fs).stderr = "Command timed out after 1 hour" ∧
     (run_ultralytics args .timedOut fs).success = false) ∧
    ((run_ultralytics args (.otherError msg) fs).return_code = some (-1) ∧
     (run_ultralytics args (.otherError msg) fs).stderr = "Unexpected error: " ++ msg ∧
     (run_ultralytics args (.otherError msg) fs).success = false) :=
  ⟨⟨rfl, rfl, rfl⟩, ⟨rfl, rfl, rfl⟩⟩

/-- C6 (counterexample): the claim says no token is ever emitted for a
key whose value is null, but a null `device` is first resolved and then
emitted: on the mapping whose sole key `device` is null, the translator
emits the two tokens `--device cpu`. -/
theorem C6_counterexample :
    List.lookup "device" [("device", PyVal.vNone)] = some PyVal.vNone ∧
    (parse_yolo_args false [("device", PyVal.vNone)]).1 = ["--device", "cpu"] :=
  ⟨rfl, rfl⟩

/-- C6 (amended): the emitted token stream is exactly the concatenation,
in mapping order, of each entry's contribution after device resolution:
nothing for a null value, the bare `--key` for boolean true, nothing for
boolean false, and `--key` followed by the value's string representation
otherwise; device resolution touches no key other than `device`. -/
theorem C6_amended (cuda : Bool) (d : Dict) :
    (parse_yolo_args cuda d).1 = (resolve_device cuda d).flatMap emitEntry ∧
    ∀ k, k ≠ "device" → List.lookup k (resolve_device cuda d) = List.lookup k d := by
  constructor
  · exact emit_loop_eq _
  · intro k hk
    unfold resolve_device
    split
    · exact lookup_dinsert_ne _ _ _ _ hk
    · exact lookup_dinsert_ne _ _ _ _ hk
    · rfl

/-- C6 witness: device resolution leaves the `model` entry unchanged. -/
theorem C6_amended_witness :
    List.lookup "model" (resolve_device false [("model", PyVal.vStr "yolov8n.pt")]) =
      List.lookup "model" [("model", PyVal.vStr "yolov8n.pt")] :=
  (C6_amended false [("model", PyVal.vStr "yolov8n.pt")]).2 "model" (by decide)

/-- C7: for every request, the extra parameters are appended after all
primary-parameter tokens, each contributing in equals-form: nothing for a
null value, the bare `key` for boolean true, nothing for boolean false,
and the single token `key=value` otherwise. -/
theorem C7_extras_after_primary (cuda : Bool) (request : Dict) :
    process_request_args cuda request =
      (parse_yolo_args cuda
        (request.filter (fun kv => kv.1 ≠ "extra_args" && kv.1 ≠ "task"))).1
        ++ (extras_of request).flatMap extraEntry := by
  unfold process_request_args
  exact extra_loop_eq _ _

/-- C8: when `device` is absent or null the translator resolves it to
exactly one of the two fixed identifiers, `cuda` or `cpu`, determined by
accelerator availability, and emits the corresponding `--device <value>`
token pair; a mapping already carrying a non-null device is passed
through unchanged. -/
theorem C8_device_default (cuda : Bool) (d : Dict) :
    ((List.lookup "device" d = none ∨ List.lookup "device" d = some PyVal.vNone) →
      List.lookup "device" (resolve_device cuda d) =
        some (.vStr (if cuda then "cuda" else "cpu")) ∧
      ∃ pre post, (parse_yolo_args cuda d).1 =
        pre ++ ["--device", if cuda then "cuda" else "cpu"] ++ post) ∧
    (∀ v, List.lookup "device" d = some v → v ≠ PyVal.vNone → resolve_device cuda d = d) := by
  constructor
  · intro h
    have hres : resolve_device cuda d =
        dinsert d "device" (.vStr (if cuda then "cuda" else "cpu")) := by
      unfold resolve_device
      rcases h with h | h <;> rw [h]
    have hlook : List.lookup "device" (resolve_device cuda d) =
        some (.vStr (if cuda then "cuda" else "cpu")) := by
      rw [hres]
      exact lookup_dinsert_self _ _ _
    refine ⟨hlook, ?_⟩
    obtain ⟨l1, l2, hsplit⟩ := lookup_split hlook
    refine ⟨l1.flatMap emitEntry, l2.flatMap emitEntry, ?_⟩
    have he : (parse_yolo_args cuda d).1 = (resolve_device cuda d).flatMap emitEntry :=
      emit_loop_eq _
    rw [he, hsplit, List.flatMap_append, List.flatMap_cons]
    have hdev : emitEntry ("device", PyVal.vStr (if cuda then "cuda" else "cpu")) =
        ["--device", if cuda then "cuda" else "cpu"] := rfl
    rw [hdev, List.append_assoc]
  · intro v hv hne
    unfold resolve_device
    rw [hv]
    cases v with
    | vNone => exact absurd rfl hne
    | vBool b => rfl
    | vInt n => rfl
    | vFloat q => rfl
    | vStr s => rfl
    | vDict l => rfl

/-- C8 witness: with no accelerator and an empty mapping, the resolved
device is `cpu` and the `--device cpu` pair is emitted. -/
theorem C8_device_default_witness :
    List.lookup "device" (resolve_device false []) = some (PyVal.vStr "cpu") ∧
    ∃ pre post, (parse_yolo_args false []).1 = pre ++ ["--device", "cpu"] ++ post :=
  (C8_device_default false []).1 (Or.inl rfl)

/-- C9: a result file that decodes stores its content under
`file_<stem>`, a file that fails to decode stores the error text under
`file_<stem>_error` instead of raising, and a malformed file processed
first does not prevent the following files from being collected. -/
theorem C9_collector_resilient (a b : RFile) (v : PyVal) (e : String)
    (hext : (strEndsWith a.path ".json" || strEndsWith a.path ".yaml"
      || strEndsWith a.path ".yml") = true)
    (ha : a.parsed = .ok v) (hb : b.parsed = .error e)
    (hk : ("file_" ++ stemOf a.path) ≠ ("file_" ++ stemOf b.path ++ "_error")) :
    parse_results_file b = [("file_" ++ stemOf b.path ++ "_error", .vStr e)] ∧
    List.lookup ("file_" ++ stemOf a.path) (collect_result_files [b, a] []) = some v ∧
    List.lookup ("file_" ++ stemOf b.path ++ "_error") (collect_result_files [b, a] [])
      = some (.vStr e) := by
  have hpb : parse_results_file b = [("file_" ++ stemOf b.path ++ "_error", .vStr e)] := by
    unfold parse_results_file
    rw [hb]
  have hpa : parse_results_file a = [("file_" ++ stemOf a.path, v)] := by
    unfold parse_results_file
    rw [ha]
    dsimp only
    by_cases h1 : strEndsWith a.path ".json" = true
    · rw [if_pos h1]
    · rw [if_neg h1]
      have h2 : (strEndsWith a.path ".yaml" || strEndsWith a.path ".yml") = true := by
        rcases Bool.or_eq_true_iff.mp hext with h | h
        · rcases Bool.or_eq_true_iff.mp h with h3 | h3
          · exact absurd h3 h1
          · simp [h3]
        · simp [h]
      rw [if_pos h2]
  have hcol : collect_result_files [b, a] [] =
      dinsert (dinsert [] ("file_" ++ stemOf b.path ++ "_error") (.vStr e))
        ("file_" ++ stemOf a.path) v := by
    unfold collect_result_files
    simp [List.foldl, hpa, hpb, dupdate]
  refine ⟨hpb, ?_, ?_⟩
  · rw [hcol]
    exact lookup_dinsert_self _ _ _
  · rw [hcol]
    rw [lookup_dinsert_ne _ _ _ _ (Ne.symm hk)]
    exact lookup_dinsert_self _ _ _

/-- C9 witness: a malformed YAML file followed by a well-formed JSON file
in the same walk; both entries are present. -/
theorem C9_collector_resilient_witness :
    parse_results_file ⟨"runs/val/metrics.yaml", .error "bad yaml"⟩ =
      [("file_metrics_error", PyVal.vStr "bad yaml")] ∧
    List.lookup "file_results"
      (collect_result_files [⟨"runs/val/metrics.yaml", .error "bad yaml"⟩,
        ⟨"runs/train/results.json", .ok (PyVal.vInt 7)⟩] []) = some (PyVal.vInt 7) ∧
    List.lookup "file_metrics_error"
      (collect_result_files [⟨"runs/val/metrics.yaml", .error "bad yaml"⟩,
        ⟨"runs/train/results.json", .ok (PyVal.vInt 7)⟩] []) = some (PyVal.vStr "bad yaml") :=
  C9_collector_resilient ⟨"runs/train/results.json", .ok (PyVal.vInt 7)⟩
    ⟨"runs/val/metrics.yaml", .error "bad yaml"⟩ (PyVal.vInt 7) "bad yaml"
    (by decide) rfl rfl (by decide)

/-- C10: the translator writes the resolved device back into the
caller-supplied mapping (the post-call mapping returned by the embedding)
when `device` is absent or null, leaving every other entry unchanged; a
mapping with a non-null device is not modified at all. -/
theorem C10_caller_mapping_mutation (cuda : Bool) (d : Dict) :
    ((List.lookup "device" d = none ∨ List.lookup "device" d = some PyVal.vNone) →
      (parse_yolo_args cuda d).2 =
        dinsert d "device" (.vStr (if cuda then "cuda" else "cpu")) ∧
      ∀ k, k ≠ "device" →
        List.lookup k (parse_yolo_args cuda d).2 = List.lookup k d) ∧
    (∀ v, List.lookup "device" d = some v → v ≠ PyVal.vNone →
      (parse_yolo_args cuda d).2 = d) := by
  constructor
  · intro h
    have hres : (parse_yolo_args cuda d).2 =
        dinsert d "device" (.vStr (if cuda then "cuda" else "cpu")) := by
      show resolve_device cuda d = _
      unfold resolve_device
      rcases h with h | h <;> rw [h]
    refine ⟨hres, ?_⟩
    intro k hk
    rw [hres]
    exact lookup_dinsert_ne _ _ _ _ hk
  · intro v hv hne
    show resolve_device cuda d = d
    unfold resolve_device
    rw [hv]
    cases v with
    | vNone => exact absurd rfl hne
    | vBool b => rfl
    | vInt n => rfl
    | vFloat q => rfl
    | vStr s => rfl
    | vDict l => rfl

/-- C10 witness: with `device` absent the post-call mapping gains the
resolved device entry and keeps `model` unchanged. -/
theorem C10_caller_mapping_mutation_witness :
    (parse_yolo_args false [("model", PyVal.vStr "x")]).2 =
      dinsert [("model", PyVal.vStr "x")] "device" (PyVal.vStr "cpu") ∧
    List.lookup "model" (parse_yolo_args false [("model", PyVal.vStr "x")]).2 =
      List.lookup "model" [("model", PyVal.vStr "x")] := by
  have h := (C10_caller_mapping_mutation false [("model", PyVal.vStr "x")]).1 (Or.inl rfl)
  exact ⟨h.1, h.2 "model" (by decide)⟩

/-- C4 (counterexample): the output-metrics extraction of the source also
reads the filesystem (`_find_results_files` is called inside
`_parse_metrics_from_output`), so it is not a function of the two text
inputs alone: with identical (empty) text, a changed result-file state
changes the returned MetricsMap. -/
theorem C4_counterexample :
    parse_metrics_from_output "" "" ⟨[], []⟩ = .ok [] ∧
    parse_metrics_from_output "" "" ⟨[⟨"runs/train/results.json", .ok (.vInt 1)⟩], []⟩
      = .ok [("file_results", .vInt 1)] ∧
    parse_metrics_from_output "" "" ⟨[], []⟩ ≠
      parse_metrics_from_output "" "" ⟨[⟨"runs/train/results.json", .ok (.vInt 1)⟩], []⟩ := by
  refine ⟨rfl, rfl, ?_⟩
  intro h
  rw [show parse_metrics_from_output "" "" ⟨[], []⟩ = Except.ok ([] : Dict) from rfl,
      show parse_metrics_from_output "" "" ⟨[⟨"runs/train/results.json", .ok (.vInt 1)⟩], []⟩
        = Except.ok [("file_results", PyVal.vInt 1)] from rfl] at h
  injection h with h2
  exact List.cons_ne_nil _ _ h2.symm

/-- C4 (amended): extraction is deterministic as a function of the two
text inputs together with the scanned result-file state: it factors into
the purely textual scans — a function of `stdout + "\n" + stderr` alone —
merged with the file-derived entries, a function of the walked files
alone. -/
theorem C4_amended (sout serr : String) (fs : FS) :
    parse_metrics_from_output sout serr fs =
      Except.map (collect_result_files (find_results_files fs))
        (text_metrics (sout.data ++ '\n' :: serr.data)) := by
  unfold parse_metrics_from_output text_metrics
  cases h1 : parse_training_metrics (sout.data ++ '\n' :: serr.data) with
  | error e => simp [h1, Bind.bind, Except.bind, Except.map]
  | ok t =>
      cases h2 : parse_validation_metrics (sout.data ++ '\n' :: serr.data) with
      | error e => simp [h1, h2, Bind.bind, Except.bind, Except.map]
      | ok v =>
          cases h3 : parse_prediction_metrics (sout.data ++ '\n' :: serr.data) with
          | error e => simp [h1, h2, h3, Bind.bind, Except.bind, Except.map]
          | ok p =>
              cases h4 : parse_export_metrics (sout.data ++ '\n' :: serr.data) with
              | error e => simp [h1, h2, h3, h4, Bind.bind, Except.bind, Except.map]
              | ok ex =>
                  simp [h1, h2, h3, h4, Bind.bind, Except.bind, Except.map, pure, Except.pure]

/-- C5 (counterexample): last-match-wins fails to produce the epoch
entries on every input: on a text with two epoch occurrences and the
malformed loss token `1.2.3` (which the class `[\d.]+` matches), Python's
`float()` raises `ValueError`, the extractor aborts, and no entries are
produced at all (the orchestrator folds the error into the failure
record). -/
theorem C5_counterexample :
    findall epochTryAt "Epoch 1/10\nEpoch 5/10\nbox_loss: 1.2.3".data = [(1, 10), (5, 10)] ∧
    parse_training_metrics "Epoch 1/10\nEpoch 5/10\nbox_loss: 1.2.3".data
      = .error "could not convert string to float: \x271.2.3\x27" ∧
    parse_metrics_from_output "Epoch 1/10\nEpoch 5/10\nbox_loss: 1.2.3" "" ⟨[], []⟩
      = .error "could not convert string to float: \x271.2.3\x27" :=
  ⟨rfl, rfl, rfl⟩

/-- C5 (amended): whenever a scan family completes without a `ValueError`
(every numeric token fed to `float()` is a well-formed decimal), each of
its entries is the value captured by the last occurrence of its pattern
in the text: the epoch pair, each loss and mAP value, precision and
recall, the inference time, the detection count, the export duration and
the saved path all follow last-match-wins. -/
theorem C5_amended (out : List Char) :
    (∀ m, parse_training_metrics out = .ok m →
      (∀ a b, (findall epochTryAt out).getLast? = some (a, b) →
        List.lookup "current_epoch" m = some (.vInt (a : Int)) ∧
        List.lookup "total_epochs" m = some (.vInt (b : Int))) ∧
      (∀ key label, (key, label) ∈ lossPatternKeys ++ mapPatternKeys →
        ∀ s, (findall (labelNumTryAt label.data) out).getLast? = some s →
        ∃ q, pyFloat s = some q ∧ List.lookup key m = some (.vFloat q))) ∧
    (∀ m, parse_validation_metrics out = .ok m →
      ∀ key label, (key, label) ∈ valPatternKeys →
        ∀ s, (findall (labelNumTryAt label.data) out).getLast? = some s →
        ∃ q, pyFloat s = some q ∧ List.lookup key m = some (.vFloat q)) ∧
    (∀ m, parse_prediction_metrics out = .ok m →
      (∀ s, (findall inferenceTryAt out).getLast? = some s →
        ∃ q, pyFloat s = some q ∧ List.lookup "inference_time_ms" m = some (.vFloat q)) ∧
      (∀ n, (findall detectionsTryAt out).getLast? = some n →
        List.lookup "total_detections" m = some (.vInt (n : Int)))) ∧
    (∀ m, parse_export_metrics out = .ok m →
      (∀ s, (findall exportTryAt out).getLast? = some s →
        ∃ q, pyFloat s = some q ∧ List.lookup "export_time_s" m = some (.vFloat q)) ∧
      (∀ cap, (findall savedTryAt out).getLast? = some cap →
        List.lookup "exported_file" m = some (.vStr (String.mk (pyStrip cap))))) := by
  refine ⟨?_, ?_, ?_, ?_⟩
  · -- training
    intro m hm
    unfold parse_training_metrics at hm
    obtain ⟨m1, h1, h2⟩ := except_bind_ok hm
    constructor
    · intro a b hlast
      obtain ⟨e1, e2⟩ := epochDict_lookup hlast
      have p1c : List.lookup "current_epoch" m1 = List.lookup "current_epoch" (epochDict out) :=
        floatScans_ok_ne (by decide) h1
      have p2c : List.lookup "current_epoch" m = List.lookup "current_epoch" m1 :=
        floatScans_ok_ne (by decide) h2
      have p1t : List.lookup "total_epochs" m1 = List.lookup "total_epochs" (epochDict out) :=
        floatScans_ok_ne (by decide) h1
      have p2t : List.lookup "total_epochs" m = List.lookup "total_epochs" m1 :=
        floatScans_ok_ne (by decide) h2
      exact ⟨by rw [p2c, p1c]; exact e1, by rw [p2t, p1t]; exact e2⟩
    · intro key label hmem s hs
      rcases List.mem_append.mp hmem with hloss | hmap
      · obtain ⟨q, hq, hlook⟩ := floatScans_ok_mem hloss (by decide) h1 hs
        have hpres : List.lookup key m = List.lookup key m1 := by
          refine floatScans_ok_ne ?_ h2
          intro kv2 hkv2
          simp [lossPatternKeys] at hloss
          simp [mapPatternKeys] at hkv2
          rcases hloss with ⟨hk1, _⟩ | ⟨hk1, _⟩ | ⟨hk1, _⟩ | ⟨hk1, _⟩ <;>
            rcases hkv2 with h2a | h2a <;> subst hk1 <;> subst h2a <;> decide
        rw [hpres]
        exact ⟨q, hq, hlook⟩
      · exact floatScans_ok_mem hmap (by decide) h2 hs
  · -- validation
    intro m hm key label hmem s hs
    unfold parse_validation_metrics at hm
    exact floatScans_ok_mem hmem (by decide) hm hs
  · -- prediction
    intro m hm
    unfold parse_prediction_metrics at hm
    obtain ⟨m1, h1, h2⟩ := except_bind_ok hm
    constructor
    · intro s hs
      obtain ⟨q, hq, hlook⟩ := floatScanWith_ok_last h1 hs
      cases hd : (findall detectionsTryAt out).getLast? with
      | none =>
          rw [hd] at h2
          have h3 : Except.ok m1 = Except.ok m := h2
          injection h3 with h4
          subst h4
          exact ⟨q, hq, hlook⟩
      | some n =>
          rw [hd] at h2
          have h3 : Except.ok (dinsert m1 "total_detections" (.vInt (n : Int)))
            = Except.ok m := h2
          injection h3 with h4
          subst h4
          rw [lookup_dinsert_ne _ _ _ _ (by decide)]
          exact ⟨q, hq, hlook⟩
    · intro n hn
      rw [hn] at h2
      have h3 : Except.ok (dinsert m1 "total_detections" (.vInt (n : Int)))
        = Except.ok m := h2
      injection h3 with h4
      subst h4
      exact lookup_dinsert_self _ _ _
  · -- export
    intro m hm
    unfold parse_export_metrics at hm
    obtain ⟨m1, h1, h2⟩ := except_bind_ok hm
    constructor
    · intro s hs
      obtain ⟨q, hq, hlook⟩ := floatScanWith_ok_last h1 hs
      cases hd : (findall savedTryAt out).getLast? with
      | none =>
          rw [hd] at h2
          have h3 : Except.ok m1 = Except.ok m := h2
          injection h3 with h4
          subst h4
          exact ⟨q, hq, hlook⟩
      | some cap =>
          rw [hd] at h2
          have h3 : Except.ok (dinsert m1 "exported_file" (.vStr (String.mk (pyStrip cap))))
            = Except.ok m := h2
          injection h3 with h4
          subst h4
          rw [lookup_dinsert_ne _ _ _ _ (by decide)]
          exact ⟨q, hq, hlook⟩
    · intro cap hcap
      rw [hcap] at h2
      have h3 : Except.ok (dinsert m1 "exported_file" (.vStr (String.mk (pyStrip cap))))
        = Except.ok m := h2
      injection h3 with h4
      subst h4
      exact lookup_dinsert_self _ _ _

/-- C5 witness: a text with two epoch occurrences; the stored entries are
the second occurrence's values. -/
theorem C5_amended_witness :
    List.lookup "current_epoch"
      [("current_epoch", PyVal.vInt 5), ("total_epochs", PyVal.vInt 10)] = some (PyVal.vInt 5) ∧
    List.lookup "total_epochs"
      [("current_epoch", PyVal.vInt 5), ("total_epochs", PyVal.vInt 10)] = some (PyVal.vInt 10) :=
  ((C5_amended "Epoch 1/10 Epoch 5/10".data).1
    [("current_epoch", PyVal.vInt 5), ("total_epochs", PyVal.vInt 10)] rfl).1 5 10 rfl

end Ultra
